import Mathlib

/-!
Shallow embedding of the numzy image-compression utilities and receipt
mutations, with theorems checking the specification's claims against them.

Embedded sources:
* `src/lib/imageCompression.ts` — namespace `LibIC`
  (`calculateDimensions`, `compressToSize`, `compressImage`,
  `isCompressibleImage`, `generateCompressedFileName`).
* `src/unnamed/part_001` (the second compression utility) — namespace `UnIC`
  (`calculateOptimalDimensions`, `compressImage`, `isCompressibleImage`).
* `src/unnamed/part_002` (Convex receipts mutations) — namespace `Receipts`
  (`storeReceipt`).

JavaScript numbers are modelled as exact rationals (`ℚ`); the concrete
constants involved (0.8, 0.1, pixel counts, byte sizes) are small and the
claims under check do not hinge on binary floating-point rounding except
where noted in individual comments.  `Math.round` is `⌊x + 1/2⌋`
(round half up, as in JS for the nonnegative values that occur here).
Asynchronous image decoding and canvas encoding are modelled as explicit
function parameters (`dec`, `enc`): a decoder maps a file to `Option` of its
pixel dimensions (`none` = `img.onerror` fires), an encoder maps canvas
width, height and quality to `Option` of the produced blob's byte size
(`none` = `canvas.toBlob` hands `null` to its callback).  Promise rejection
is `Except.error` carrying the thrown message.  The unbounded recursion of
`LibIC.compressToSize` is step-indexed with explicit fuel: a `none` result
means the computation did not complete within the given number of steps,
and nontermination is expressed as returning `none` for every fuel.
Progress-callback emissions are collected in a trace list (pure
instrumentation: the numbers passed to `onProgress`, in order).
-/

/-- JavaScript `Math.round` for the rationals that occur here:
round half away from zero is `⌊x + 1/2⌋` on nonnegative inputs. -/
def jsRound (x : ℚ) : ℤ := ⌊x + 1 / 2⌋

/-- JavaScript `String.prototype.toLowerCase()` for the ASCII strings that
occur here (MIME types, file names), at the character-list level. -/
def jsToLower (s : String) : String := ⟨s.data.map Char.toLower⟩

/-- `s` ends with `sfx` (both already lowercased where needed). -/
def strEndsWith (s sfx : String) : Bool :=
  sfx.data == s.data.drop (s.data.length - sfx.data.length)

/-- A browser `File`: name, declared MIME type, byte size.  Returning the
very same `File` value models returning the input unchanged (same bytes). -/
structure JFile where
  name : String
  type : String
  size : ℕ
deriving DecidableEq, Repr

/-- Pixel dimensions of a decoded image. -/
structure JImage where
  width : ℕ
  height : ℕ
deriving DecidableEq, Repr

/-- A decoder: `none` models `img.onerror` (the bytes are not a raster image). -/
def Decoder : Type := JFile → Option JImage

/-- An encoder: given canvas width, height and quality, the byte size of the
blob `canvas.toBlob` produces, or `none` when the callback receives `null`. -/
def Encoder : Type := ℕ → ℕ → ℚ → Option ℕ

namespace LibIC

/-- `CompressionOptions` of `src/lib/imageCompression.ts` (the progress sink
is factored out into the returned trace; `format` only feeds MIME/file-name
strings, kept as a string). -/
structure CompressionOptions where
  maxSizeBytes : ℕ
  maxWidth : ℕ
  maxHeight : ℕ
  quality : ℚ
  format : String
deriving DecidableEq, Repr

/-- `DEFAULT_COMPRESSION_OPTIONS` of `src/lib/imageCompression.ts`. -/
def DEFAULT_COMPRESSION_OPTIONS : CompressionOptions :=
  { maxSizeBytes := 900 * 1024
    maxWidth := 1920
    maxHeight := 1920
    quality := 8 / 10
    format := "jpeg" }

/-- `calculateDimensions` of `src/lib/imageCompression.ts`: clamp to the max
box keeping aspect ratio.  Faithful transcription: the branch is chosen by
`width > height`, and only the chosen axis is clamped with `Math.min`. -/
def calculateDimensions (originalWidth originalHeight maxWidth maxHeight : ℕ) :
    ℤ × ℤ :=
  if originalWidth > maxWidth ∨ originalHeight > maxHeight then
    let aspectRatio : ℚ := (originalWidth : ℚ) / (originalHeight : ℚ)
    if originalWidth > originalHeight then
      let width : ℚ := min (originalWidth : ℚ) (maxWidth : ℚ)
      let height : ℚ := width / aspectRatio
      (jsRound width, jsRound height)
    else
      let height : ℚ := min (originalHeight : ℚ) (maxHeight : ℚ)
      let width : ℚ := height * aspectRatio
      (jsRound width, jsRound height)
  else
    ((originalWidth : ℤ), (originalHeight : ℤ))

/-- `generateCompressedFileName`:
`originalName.replace(/\.[^/.]+$/, '')` drops a final `.ext` (a dot
followed by a nonempty run of characters that are neither `.` nor `/`),
then `_compressed.<format>` is appended. -/
def generateCompressedFileName (originalName format : String) : String :=
  let cs := originalName.data
  let runLen := (cs.reverse.takeWhile (fun c => c ≠ '.' ∧ c ≠ '/')).length
  let nameWithoutExt : String :=
    if runLen ≠ 0 ∧ (cs.reverse.drop runLen).head? = some '.' then
      ⟨cs.take (cs.length - (runLen + 1))⟩
    else originalName
  nameWithoutExt ++ "_compressed." ++ format

/-- The type list of `isCompressibleImage` in `src/lib/imageCompression.ts`. -/
def compressibleTypes : List String :=
  ["image/jpeg", "image/jpg", "image/png", "image/webp", "image/heic", "image/heif"]

/-- The extension test `/\.(jpe?g|png|webp|heic|heif)$/i.test(file.name)`:
the lowercased name ends with one of the listed extensions. -/
def extensionMatches (name : String) : Bool :=
  [".jpeg", ".jpg", ".png", ".webp", ".heic", ".heif"].any
    (fun ext => strEndsWith (jsToLower name) ext)

/-- `isCompressibleImage` of `src/lib/imageCompression.ts`: lowercased MIME
type is in the list, or the file name matches the extension regex. -/
def isCompressibleImage (file : JFile) : Bool :=
  compressibleTypes.contains (jsToLower file.type) || extensionMatches file.name

/-- The quality `while` loop of `compressToSize`
(`src/lib/imageCompression.ts` lines 130–163): starting from the given
quality, emit progress `80 + (attempt / maxAttempts) * 15`, encode, throw if
the blob is `null`, return the blob as a `File` when it fits, otherwise
retry at `quality - 0.1` while `quality ≥ 0.1` (`minQuality`).  The first
component of a successful result is `some` of the produced file, or `none`
when the loop exhausted quality without fitting; the second is the trace of
progress values.  Step-indexed: `none` = out of fuel. -/
def qualityLoop (enc : Encoder) (w h : ℕ) (opts : CompressionOptions)
    (originalFileName : String) (maxAttempts : ℚ) :
    ℕ → ℚ → ℕ → Option (Except String (Option JFile × List ℚ))
  | 0, _, _ => none
  | n + 1, quality, attempt =>
    if quality < 1 / 10 then some (.ok (none, []))
    else
      let attempt1 := attempt + 1
      let progress : ℚ := 80 + ((attempt1 : ℚ) / maxAttempts) * 15
      match enc w h quality with
      | none => some (.error "Failed to create blob from canvas")
      | some blobSize =>
        if blobSize ≤ opts.maxSizeBytes then
          some (.ok (some ⟨generateCompressedFileName originalFileName opts.format,
                           "image/" ++ opts.format, blobSize⟩,
                     [progress, 98, 100]))
        else
          match qualityLoop enc w h opts originalFileName maxAttempts n
              (quality - 1 / 10) attempt1 with
          | none => none
          | some (.error e) => some (.error e)
          | some (.ok (r, tr)) => some (.ok (r, progress :: tr))

/-- `compressToSize` of `src/lib/imageCompression.ts`: run the quality loop;
if it exhausts quality without fitting, emit progress 85, shrink the canvas
to `Math.round(0.8 ·)` of each axis, reset quality to 0.8, and recurse —
with no cap on the number of dimension-reduction rounds.  The result carries
the produced file, the progress trace, and (instrumentation) the number of
dimension-reduction rounds performed.  Step-indexed on the recursion depth:
`none` = did not complete within `fuel` rounds. -/
def compressToSize (enc : Encoder) :
    ℕ → ℕ → ℕ → CompressionOptions → String →
    Option (Except String (JFile × List ℚ × ℕ))
  | 0, _, _, _, _ => none
  | fuel + 1, w, h, opts, originalFileName =>
    let minQuality : ℚ := 1 / 10
    let qualityStep : ℚ := 1 / 10
    let maxAttempts : ℚ := ((⌈(opts.quality - minQuality) / qualityStep⌉ : ℤ) : ℚ)
    match qualityLoop enc w h opts originalFileName maxAttempts
        (fuel + 1) opts.quality 0 with
    | none => none
    | some (.error e) => some (.error e)
    | some (.ok (some f, tr)) => some (.ok (f, (tr, 0)))
    | some (.ok (none, tr)) =>
      let newWidth := (jsRound ((w : ℚ) * (8 / 10))).toNat
      let newHeight := (jsRound ((h : ℚ) * (8 / 10))).toNat
      match compressToSize enc fuel newWidth newHeight
          { opts with quality := 8 / 10 } originalFileName with
      | none => none
      | some (.error e) => some (.error e)
      | some (.ok (f, tr2, rounds)) => some (.ok (f, (tr ++ 85 :: tr2, rounds + 1)))

/-- `compressImage` of `src/lib/imageCompression.ts`: early-exit for files
already within the ceiling (progress `100` only), reject with
`"Failed to load image"` when decoding fails, otherwise emit progress
10/20/40/60/80, resize via `calculateDimensions`, and run `compressToSize`.
(The canvas 2D context is assumed available; its absence is an
environment failure independent of the input.) -/
def compressImage (dec : Decoder) (enc : Encoder) (fuel : ℕ)
    (file : JFile) (opts : CompressionOptions) :
    Option (Except String (JFile × List ℚ × ℕ)) :=
  if file.size ≤ opts.maxSizeBytes then some (.ok (file, ([100], 0)))
  else
    match dec file with
    | none => some (.error "Failed to load image")
    | some img =>
      let dims := calculateDimensions img.width img.height opts.maxWidth opts.maxHeight
      match compressToSize enc fuel dims.1.toNat dims.2.toNat opts file.name with
      | none => none
      | some (.error e) => some (.error e)
      | some (.ok (f, tr, rounds)) =>
        some (.ok (f, (10 :: 20 :: 40 :: 60 :: 80 :: tr, rounds)))

end LibIC

namespace UnIC

/-- Options of the `src/unnamed/part_001` utility (after merging with its
`DEFAULT_OPTIONS`; the progress sink is factored into the trace). -/
structure CompressionOptions where
  maxSizeBytes : ℕ
  initialQuality : ℚ
  minQuality : ℚ
  maxWidth : ℕ
  maxHeight : ℕ
deriving DecidableEq, Repr

/-- `DEFAULT_OPTIONS` of `src/unnamed/part_001`. -/
def DEFAULT_OPTIONS : CompressionOptions :=
  { maxSizeBytes := 1024 * 1024
    initialQuality := 9 / 10
    minQuality := 3 / 10
    maxWidth := 2048
    maxHeight := 2048 }

/-- `calculateOptimalDimensions` of `src/unnamed/part_001`: two sequential
clamps, width first, then height, each recomputing the other axis from the
original aspect ratio. -/
def calculateOptimalDimensions (originalWidth originalHeight maxWidth maxHeight : ℕ) :
    ℤ × ℤ :=
  let aspectRatio : ℚ := (originalWidth : ℚ) / (originalHeight : ℚ)
  let w1 : ℚ := (originalWidth : ℚ)
  let h1 : ℚ := (originalHeight : ℚ)
  let p2 : ℚ × ℚ :=
    if w1 > (maxWidth : ℚ) then ((maxWidth : ℚ), (maxWidth : ℚ) / aspectRatio)
    else (w1, h1)
  let p3 : ℚ × ℚ :=
    if p2.2 > (maxHeight : ℚ) then ((maxHeight : ℚ) * aspectRatio, (maxHeight : ℚ))
    else p2
  (jsRound p3.1, jsRound p3.2)

/-- `isCompressibleImage` of `src/unnamed/part_001`: lowercased MIME type is
in its (different) list — bmp and tiff instead of heic and heif, and no
file-name fallback. -/
def isCompressibleImage (file : JFile) : Bool :=
  ["image/jpeg", "image/jpg", "image/png", "image/webp",
   "image/bmp", "image/tiff"].contains (jsToLower file.type)

/-- The `do`/`while` quality loop of `compressImage` in
`src/unnamed/part_001` (lines 164–192).  Each iteration encodes at the
current quality; `canvas.toBlob((blob) => resolve(blob!), ...)` does NOT
reject a `null` blob — `new File([null], name)` stringifies it into a
4-byte file containing `"null"`, modelled by the `none` branch below.  The
iteration emits progress `50 + (attempts / 10) * 40`, breaks when the file
fits or quality reached `minQuality`, else sets
`quality := max (quality · 0.8) minQuality`, increments `attempts`, and
repeats while `attempts < 10` (`maxAttempts`).  Returns the last produced
file, the quality it was encoded at, and the progress trace.  `countdown`
is structural fuel kept equal to `10 - attempts` by every caller, so the
`countdown = 0` base case is unreachable while the `while` guard holds. -/
def compressLoop (enc : Encoder) (w h : ℕ) (opts : CompressionOptions)
    (fileName : String) :
    ℕ → ℚ → ℕ → (JFile × ℚ × List ℚ)
  | 0, quality, attempts =>
    -- canonical calls keep `countdown = 10 - attempts`, so here `attempts`
    -- is 10: the body runs once (do/while) and the guard `attempts < 10`
    -- fails after it, returning the file of this final iteration
    (match enc w h quality with
      | some blobSize => ⟨fileName, "image/jpeg", blobSize⟩
      | none => ⟨fileName, "image/jpeg", 4⟩,
     (quality, [50 + ((attempts : ℚ) / 10) * 40]))
  | countdown + 1, quality, attempts =>
    let compressedFile : JFile :=
      match enc w h quality with
      | some blobSize => ⟨fileName, "image/jpeg", blobSize⟩
      | none => ⟨fileName, "image/jpeg", 4⟩
    let progress : ℚ := 50 + ((attempts : ℚ) / 10) * 40
    if compressedFile.size ≤ opts.maxSizeBytes ∨ quality ≤ opts.minQuality then
      (compressedFile, (quality, [progress]))
    else
      let quality1 := max (quality * (8 / 10)) opts.minQuality
      let attempts1 := attempts + 1
      if attempts1 < 10 then
        let r := compressLoop enc w h opts fileName countdown quality1 attempts1
        (r.1, (r.2.1, progress :: r.2.2))
      else (compressedFile, (quality, [progress]))

/-- `compressImage` of `src/unnamed/part_001`: early-exit (with no progress
call at all) when the file is within the ceiling; reject with
`"Failed to load image"` when decoding fails; otherwise emit 10/30/50,
resize via `calculateOptimalDimensions`, run the quality loop, emit 100 and
return the last file.  Result instrumentation: the returned file, `some` of
the quality it was encoded at (`none` on the early-exit path, where no
encode happens), and the progress trace. -/
def compressImage (dec : Decoder) (enc : Encoder) (file : JFile)
    (options : CompressionOptions) :
    Except String (JFile × Option ℚ × List ℚ) :=
  if file.size ≤ options.maxSizeBytes then .ok (file, (none, []))
  else
    match dec file with
    | none => .error "Failed to load image"
    | some img =>
      let dims := calculateOptimalDimensions img.width img.height
        options.maxWidth options.maxHeight
      let r := compressLoop enc dims.1.toNat dims.2.toNat options file.name
        10 options.initialQuality 0
      .ok (r.1, (some r.2.1, 10 :: 30 :: 50 :: (r.2.2 ++ [100])))

end UnIC

namespace Receipts

/-- A line item of the `receipts` table (`src/convex/schema.ts`). -/
structure LineItem where
  description : Option String
  product_code : Option String
  category : Option String
  item_price : Option String
  sale_price : Option String
  quantity : Option String
  total : Option String
deriving DecidableEq, Repr

/-- A row of the `receipts` table (`src/convex/schema.ts`). -/
structure Receipt where
  userId : String
  fileName : String
  fileDisplayName : Option String
  fileId : String
  uploadedAt : ℕ
  size : ℕ
  mimeType : String
  status : String
  processing_successful : Bool
  error_message : Option String
  merchant : Option String
  location_city : Option String
  location_state : Option String
  location_zipcode : Option String
  time : Option String
  transaction_id : Option String
  subtotal : Option String
  tax : Option String
  total : Option String
  handwritten_notes : List String
  items : List LineItem
  not_travel_related : Bool
  amount_over_limit : Bool
  math_error : Bool
  handwritten_x : Bool
  audit_reasoning : String
  needs_audit : Bool
deriving DecidableEq, Repr

/-- The arguments of the `storeReceipt` mutation (`src/unnamed/part_002`). -/
structure StoreReceiptArgs where
  userId : String
  fileId : String
  fileName : String
  size : ℕ
  mimeType : String
deriving DecidableEq, Repr

/-- The record inserted by the `storeReceipt` mutation
(`src/unnamed/part_002` lines 14–60); `now` models `Date.now()`.
`undefined` fields are `none`. -/
def storeReceipt (args : StoreReceiptArgs) (now : ℕ) : Receipt :=
  { userId := args.userId
    fileName := args.fileName
    fileDisplayName := none
    fileId := args.fileId
    uploadedAt := now
    size := args.size
    mimeType := args.mimeType
    status := "pending"
    processing_successful := false
    error_message := none
    merchant := none
    location_city := none
    location_state := none
    location_zipcode := none
    time := none
    transaction_id := none
    subtotal := none
    tax := none
    total := none
    handwritten_notes := []
    items := []
    not_travel_related := false
    amount_over_limit := false
    math_error := false
    handwritten_x := false
    audit_reasoning := ""
    needs_audit := false }

end Receipts

-- quick sanity checks of the dimension calculators on concrete inputs
example : LibIC.calculateDimensions 100 200 50 300 = (100, 200) := by
  norm_num [LibIC.calculateDimensions, jsRound, min_def]
example : LibIC.calculateDimensions 400 300 2048 2048 = (400, 300) := by
  norm_num [LibIC.calculateDimensions, jsRound, min_def]
example : UnIC.calculateOptimalDimensions 100 200 50 300 = (50, 100) := by
  norm_num [UnIC.calculateOptimalDimensions, jsRound]
example : UnIC.calculateOptimalDimensions 5000 4000 2048 2048 = (2048, 1638) := by
  norm_num [UnIC.calculateOptimalDimensions, jsRound]

/-! ## Helper lemmas about `jsRound` -/

theorem jsRound_le_int (x : ℚ) (n : ℤ) (h : x ≤ (n : ℚ)) : jsRound x ≤ n := by
  have : x + 1 / 2 < (n : ℚ) + 1 := by linarith
  exact Int.lt_add_one_iff.mp (by exact_mod_cast Int.floor_lt.mpr (by push_cast; linarith))

theorem jsRound_intCast (n : ℤ) : jsRound ((n : ℚ)) = n := by
  simp [jsRound]
  norm_num

theorem jsRound_natCast (n : ℕ) : jsRound ((n : ℚ)) = n := by
  exact_mod_cast jsRound_intCast (n : ℤ)

theorem abs_jsRound_sub_le (x : ℚ) : |(jsRound x : ℚ) - x| ≤ 1 / 2 := by
  have h1 : (jsRound x : ℚ) ≤ x + 1 / 2 := Int.floor_le _
  have h2 : x + 1 / 2 - 1 < (jsRound x : ℚ) := Int.sub_one_lt_floor _
  rw [abs_le]
  constructor <;> linarith

/-! ## Claim theorems -/

/-- C10: every receipt record created by the `storeReceipt` mutation starts
in the same initial state regardless of input: status `"pending"`,
`processing_successful` false, `needs_audit` false, all four audit flags
false, empty `audit_reasoning`, empty `items` and `handwritten_notes`
arrays, and all extracted fields (merchant, the three location fields,
time, transaction id, subtotal, tax, total) unset. -/
theorem storeReceipt_initial_state (args : Receipts.StoreReceiptArgs) (now : ℕ) :
    (Receipts.storeReceipt args now).status = "pending" ∧
    (Receipts.storeReceipt args now).processing_successful = false ∧
    (Receipts.storeReceipt args now).needs_audit = false ∧
    (Receipts.storeReceipt args now).not_travel_related = false ∧
    (Receipts.storeReceipt args now).amount_over_limit = false ∧
    (Receipts.storeReceipt args now).math_error = false ∧
    (Receipts.storeReceipt args now).handwritten_x = false ∧
    (Receipts.storeReceipt args now).audit_reasoning = "" ∧
    (Receipts.storeReceipt args now).items = [] ∧
    (Receipts.storeReceipt args now).handwritten_notes = [] ∧
    (Receipts.storeReceipt args now).merchant = none ∧
    (Receipts.storeReceipt args now).location_city = none ∧
    (Receipts.storeReceipt args now).location_state = none ∧
    (Receipts.storeReceipt args now).location_zipcode = none ∧
    (Receipts.storeReceipt args now).time = none ∧
    (Receipts.storeReceipt args now).transaction_id = none ∧
    (Receipts.storeReceipt args now).subtotal = none ∧
    (Receipts.storeReceipt args now).tax = none ∧
    (Receipts.storeReceipt args now).total = none := by
  simp [Receipts.storeReceipt]

/-- C3: a file already within the size ceiling is returned unchanged by
both `compressImage` implementations — the very same file value, with no
decode or re-encode (the decoder and encoder parameters are untouched, and
in particular the result does not depend on them); re-compressing such an
output is therefore again a no-op. -/
theorem compressImage_early_exit
    (dec : Decoder) (enc : Encoder) (fuel : ℕ) (file : JFile)
    (optsL : LibIC.CompressionOptions) (optsU : UnIC.CompressionOptions)
    (hL : file.size ≤ optsL.maxSizeBytes) (hU : file.size ≤ optsU.maxSizeBytes) :
    LibIC.compressImage dec enc fuel file optsL = some (.ok (file, ([100], 0))) ∧
    UnIC.compressImage dec enc file optsU = .ok (file, (none, [])) := by
  constructor
  · simp [LibIC.compressImage, hL]
  · simp [UnIC.compressImage, hU]

/-- Witness for C3 at a concrete 100-byte file under the default options
(note the decoder and encoder passed reject everything: they are never
consulted). -/
theorem compressImage_early_exit_witness :
    LibIC.compressImage (fun _ => none) (fun _ _ _ => none) 0
        ⟨"a.jpg", "image/jpeg", 100⟩ LibIC.DEFAULT_COMPRESSION_OPTIONS =
      some (.ok (⟨"a.jpg", "image/jpeg", 100⟩, ([100], 0))) ∧
    UnIC.compressImage (fun _ => none) (fun _ _ _ => none)
        ⟨"a.jpg", "image/jpeg", 100⟩ UnIC.DEFAULT_OPTIONS =
      .ok (⟨"a.jpg", "image/jpeg", 100⟩, (none, [])) :=
  compressImage_early_exit (fun _ => none) (fun _ _ _ => none) 0
    ⟨"a.jpg", "image/jpeg", 100⟩ LibIC.DEFAULT_COMPRESSION_OPTIONS
    UnIC.DEFAULT_OPTIONS (by decide) (by decide)

/-- C6: an oversized input whose bytes cannot be decoded as a raster image
makes both `compressImage` implementations fail with the decode error
(`img.onerror` → reject `"Failed to load image"`), returning no result. -/
theorem compressImage_decode_error
    (dec : Decoder) (enc : Encoder) (fuel : ℕ) (file : JFile)
    (optsL : LibIC.CompressionOptions) (optsU : UnIC.CompressionOptions)
    (hL : optsL.maxSizeBytes < file.size) (hU : optsU.maxSizeBytes < file.size)
    (hdec : dec file = none) :
    LibIC.compressImage dec enc fuel file optsL =
      some (.error "Failed to load image") ∧
    UnIC.compressImage dec enc file optsU = .error "Failed to load image" := by
  constructor
  · simp [LibIC.compressImage, Nat.not_le.mpr hL, hdec]
  · simp [UnIC.compressImage, Nat.not_le.mpr hU, hdec]

/-- Witness for C6: a 2 MB corrupted buffer tagged `image/jpeg` that no
decoder accepts. -/
theorem compressImage_decode_error_witness :
    LibIC.compressImage (fun _ => none) (fun _ _ _ => none) 0
        ⟨"r.jpg", "image/jpeg", 2000000⟩ LibIC.DEFAULT_COMPRESSION_OPTIONS =
      some (.error "Failed to load image") ∧
    UnIC.compressImage (fun _ => none) (fun _ _ _ => none)
        ⟨"r.jpg", "image/jpeg", 2000000⟩ UnIC.DEFAULT_OPTIONS =
      .error "Failed to load image" :=
  compressImage_decode_error (fun _ => none) (fun _ _ _ => none) 0
    ⟨"r.jpg", "image/jpeg", 2000000⟩ LibIC.DEFAULT_COMPRESSION_OPTIONS
    UnIC.DEFAULT_OPTIONS (by decide) (by decide) rfl

/-- C8 counterexample: the compressible-input predicate does not accept
exactly `{image/jpeg, image/png, image/webp, image/heic, image/heif}`.
src/lib's `isCompressibleImage` accepts a file whose declared type
`text/plain` is outside the set (its file-name extension fallback fires),
and part_001's `isCompressibleImage` rejects declared type `image/heic`,
which is inside the set. -/
theorem isCompressibleImage_not_exact_type_set :
    LibIC.isCompressibleImage ⟨"doc.png", "text/plain", 0⟩ = true ∧
    "text/plain" ∉ ["image/jpeg", "image/png", "image/webp",
      "image/heic", "image/heif"] ∧
    UnIC.isCompressibleImage ⟨"r.heic", "image/heic", 0⟩ = false ∧
    "image/heic" ∈ ["image/jpeg", "image/png", "image/webp",
      "image/heic", "image/heif"] :=
  ⟨by decide, by decide, by decide, by decide⟩

/-- C8 amended: src/lib's `isCompressibleImage` accepts a file exactly when
its lowercased declared type is one of the six strings `image/jpeg`,
`image/jpg`, `image/png`, `image/webp`, `image/heic`, `image/heif`, or its
lowercased name ends in `.jpeg`/`.jpg`/`.png`/`.webp`/`.heic`/`.heif`;
part_001's accepts exactly when the lowercased type is one of `image/jpeg`,
`image/jpg`, `image/png`, `image/webp`, `image/bmp`, `image/tiff`. -/
theorem isCompressibleImage_characterization (file : JFile) :
    (LibIC.isCompressibleImage file = true ↔
      (jsToLower file.type ∈ ["image/jpeg", "image/jpg", "image/png",
         "image/webp", "image/heic", "image/heif"] ∨
       ∃ ext ∈ [".jpeg", ".jpg", ".png", ".webp", ".heic", ".heif"],
         strEndsWith (jsToLower file.name) ext = true)) ∧
    (UnIC.isCompressibleImage file = true ↔
      jsToLower file.type ∈ ["image/jpeg", "image/jpg", "image/png",
        "image/webp", "image/bmp", "image/tiff"]) := by
  constructor
  · simp [LibIC.isCompressibleImage, LibIC.compressibleTypes, LibIC.extensionMatches,
      List.any_eq_true]
  · simp [UnIC.isCompressibleImage]

/-- Characterization of `calculateOptimalDimensions` (part_001): the
returned pair is the JS-rounding of exact rationals `w3, h3` that preserve
the aspect ratio exactly and are bounded by the originals and by the
configured maxima. -/
theorem calcOpt_spec (ow oh mw mh : ℕ)
    (hw : 0 < ow) (hh : 0 < oh) (hmw : 0 < mw) (hmh : 0 < mh) :
    ∃ w3 h3 : ℚ, UnIC.calculateOptimalDimensions ow oh mw mh = (jsRound w3, jsRound h3) ∧
      w3 * oh = h3 * ow ∧ w3 ≤ ow ∧ h3 ≤ oh ∧ w3 ≤ mw ∧ h3 ≤ mh := by
  have hw' : (0 : ℚ) < ow := by exact_mod_cast hw
  have hh' : (0 : ℚ) < oh := by exact_mod_cast hh
  have hmw' : (0 : ℚ) < mw := by exact_mod_cast hmw
  have hmh' : (0 : ℚ) < mh := by exact_mod_cast hmh
  unfold UnIC.calculateOptimalDimensions
  by_cases h1 : ((ow : ℚ)) > mw
  · by_cases h2 : (mw : ℚ) / ((ow : ℚ) / oh) > mh
    · -- width clamp then height clamp
      have h2' : (mh : ℚ) * ow < mw * oh := by
        rw [gt_iff_lt, div_div_eq_mul_div, lt_div_iff₀ hw'] at h2
        linarith
      have hmwow : (mw : ℚ) * oh < ow * oh :=
        mul_lt_mul_of_pos_right h1 hh'
      refine ⟨(mh : ℚ) * ((ow : ℚ) / oh), (mh : ℚ), ?_, ?_, ?_, ?_, ?_, ?_⟩
      · simp only [if_pos h1, if_pos h2]
      · field_simp
      · rw [← mul_div_assoc, div_le_iff₀ hh']
        nlinarith
      · nlinarith
      · rw [← mul_div_assoc, div_le_iff₀ hh']
        linarith
      · linarith
    · -- only width clamp
      refine ⟨(mw : ℚ), (mw : ℚ) / ((ow : ℚ) / oh), ?_, ?_, ?_, ?_, ?_, ?_⟩
      · simp only [if_pos h1, if_neg h2]
      · rw [div_div_eq_mul_div]
        field_simp
      · linarith
      · rw [div_div_eq_mul_div, div_le_iff₀ hw']
        nlinarith
      · linarith
      · rw [gt_iff_lt, not_lt] at h2
        exact h2
  · by_cases h2 : ((oh : ℚ)) > mh
    · -- only height clamp
      have hle : (mh : ℚ) ≤ oh := le_of_lt h2
      rw [gt_iff_lt, not_lt] at h1
      refine ⟨(mh : ℚ) * ((ow : ℚ) / oh), (mh : ℚ), ?_, ?_, ?_, ?_, ?_, ?_⟩
      · simp only [if_neg (not_lt.mpr h1), if_pos h2]
      · field_simp
      · rw [← mul_div_assoc, div_le_iff₀ hh']
        nlinarith
      · linarith
      · calc (mh : ℚ) * ((ow : ℚ) / oh) ≤ ow := by
              rw [← mul_div_assoc, div_le_iff₀ hh']; nlinarith
          _ ≤ mw := h1
      · linarith
    · -- no clamp
      rw [gt_iff_lt, not_lt] at h1 h2
      refine ⟨(ow : ℚ), (oh : ℚ), ?_, ?_, ?_, ?_, ?_, ?_⟩
      · simp only [if_neg (not_lt.mpr h1), if_neg (not_lt.mpr h2)]
      · ring
      · linarith
      · linarith
      · linarith
      · linarith

/-- C2 counterexample: an oversized 100×200 image with bounds
`maxWidth = 50`, `maxHeight = 300` makes src/lib's `calculateDimensions`
keep 100×200 — the output width exceeds `maxWidth`, so the computed
dimensions do not satisfy both bounds simultaneously.  (The branch is
chosen by `width > height`, so only the taller axis is clamped.) -/
theorem calculateDimensions_exceeds_bound :
    LibIC.calculateDimensions 100 200 50 300 = (100, 200) ∧ ¬((100 : ℤ) ≤ 50) :=
  ⟨by norm_num [LibIC.calculateDimensions, jsRound, min_def], by decide⟩

/-- C2 amended: part_001's `calculateOptimalDimensions` does satisfy both
bounds simultaneously, and preserves the original aspect ratio up to
integer rounding: the cross-multiplied discrepancy
`|w·origHeight − h·origWidth|` is at most `(origWidth + origHeight)/2`,
i.e. at most half a pixel of rounding on each axis. -/
theorem calculateOptimalDimensions_bounds_and_ratio (ow oh mw mh : ℕ)
    (hw : 0 < ow) (hh : 0 < oh) (hmw : 0 < mw) (hmh : 0 < mh) :
    (UnIC.calculateOptimalDimensions ow oh mw mh).1 ≤ (mw : ℤ) ∧
    (UnIC.calculateOptimalDimensions ow oh mw mh).2 ≤ (mh : ℤ) ∧
    |((UnIC.calculateOptimalDimensions ow oh mw mh).1 : ℚ) * oh -
      ((UnIC.calculateOptimalDimensions ow oh mw mh).2 : ℚ) * ow| ≤
      ((ow : ℚ) + oh) / 2 := by
  obtain ⟨w3, h3, heq, hr, _, _, hw3, hh3⟩ := calcOpt_spec ow oh mw mh hw hh hmw hmh
  have hw' : (0 : ℚ) < ow := by exact_mod_cast hw
  have hh' : (0 : ℚ) < oh := by exact_mod_cast hh
  rw [heq]
  refine ⟨jsRound_le_int _ _ (by push_cast; linarith),
    jsRound_le_int _ _ (by push_cast; linarith), ?_⟩
  have key : ((jsRound w3 : ℚ)) * oh - ((jsRound h3 : ℚ)) * ow
      = ((jsRound w3 : ℚ) - w3) * oh - ((jsRound h3 : ℚ) - h3) * ow := by
    linear_combination hr
  have ha := abs_le.mp (abs_jsRound_sub_le w3)
  have hb := abs_le.mp (abs_jsRound_sub_le h3)
  have p1 : ((jsRound w3 : ℚ) - w3) * oh ≤ (1 / 2) * oh :=
    mul_le_mul_of_nonneg_right ha.2 hh'.le
  have p2 : (-(1 / 2) : ℚ) * oh ≤ ((jsRound w3 : ℚ) - w3) * oh :=
    mul_le_mul_of_nonneg_right ha.1 hh'.le
  have p3 : ((jsRound h3 : ℚ) - h3) * ow ≤ (1 / 2) * ow :=
    mul_le_mul_of_nonneg_right hb.2 hw'.le
  have p4 : (-(1 / 2) : ℚ) * ow ≤ ((jsRound h3 : ℚ) - h3) * ow :=
    mul_le_mul_of_nonneg_right hb.1 hw'.le
  rw [key, abs_le]
  constructor <;> linarith

/-- Witness for C2 (amended) at Scenario A's 5000×4000 image with
2048×2048 bounds. -/
theorem calculateOptimalDimensions_bounds_and_ratio_witness :
    (UnIC.calculateOptimalDimensions 5000 4000 2048 2048).1 ≤ (2048 : ℤ) ∧
    (UnIC.calculateOptimalDimensions 5000 4000 2048 2048).2 ≤ (2048 : ℤ) ∧
    |((UnIC.calculateOptimalDimensions 5000 4000 2048 2048).1 : ℚ) * 4000 -
      ((UnIC.calculateOptimalDimensions 5000 4000 2048 2048).2 : ℚ) * 5000| ≤
      ((5000 : ℚ) + 4000) / 2 := by
  exact_mod_cast calculateOptimalDimensions_bounds_and_ratio 5000 4000 2048 2048
    (by norm_num) (by norm_num) (by norm_num) (by norm_num)

/-- C9: neither dimension calculator ever upscales — each output axis is at
most the corresponding original axis — and when the original already fits
within `maxWidth × maxHeight` both calculators return the original
dimensions unchanged. -/
theorem dimension_calculators_never_upscale (ow oh mw mh : ℕ)
    (hw : 0 < ow) (hh : 0 < oh) (hmw : 0 < mw) (hmh : 0 < mh) :
    ((LibIC.calculateDimensions ow oh mw mh).1 ≤ (ow : ℤ) ∧
     (LibIC.calculateDimensions ow oh mw mh).2 ≤ (oh : ℤ)) ∧
    ((UnIC.calculateOptimalDimensions ow oh mw mh).1 ≤ (ow : ℤ) ∧
     (UnIC.calculateOptimalDimensions ow oh mw mh).2 ≤ (oh : ℤ)) ∧
    (ow ≤ mw → oh ≤ mh →
      LibIC.calculateDimensions ow oh mw mh = ((ow : ℤ), (oh : ℤ)) ∧
      UnIC.calculateOptimalDimensions ow oh mw mh = ((ow : ℤ), (oh : ℤ))) := by
  have hw' : (0 : ℚ) < ow := by exact_mod_cast hw
  have hh' : (0 : ℚ) < oh := by exact_mod_cast hh
  refine ⟨?_, ?_, ?_⟩
  · unfold LibIC.calculateDimensions
    by_cases hc : ow > mw ∨ oh > mh
    · by_cases hb : ow > oh
      · simp only [if_pos hc, if_pos hb]
        constructor
        · exact jsRound_le_int _ _ (by push_cast; exact min_le_left _ _)
        · refine jsRound_le_int _ _ ?_
          rw [div_div_eq_mul_div, div_le_iff₀ hw']
          push_cast
          nlinarith [min_le_left ((ow : ℚ)) ((mw : ℚ))]
      · simp only [if_pos hc, if_neg hb]
        constructor
        · refine jsRound_le_int _ _ ?_
          rw [← mul_div_assoc, div_le_iff₀ hh']
          push_cast
          nlinarith [min_le_left ((oh : ℚ)) ((mh : ℚ))]
        · exact jsRound_le_int _ _ (by push_cast; exact min_le_left _ _)
    · simp only [if_neg hc]
      exact ⟨le_refl _, le_refl _⟩
  · obtain ⟨w3, h3, heq, hr, hwo, hho, _, _⟩ := calcOpt_spec ow oh mw mh hw hh hmw hmh
    rw [heq]
    exact ⟨jsRound_le_int _ _ (by push_cast; linarith),
      jsRound_le_int _ _ (by push_cast; linarith)⟩
  · intro h1 h2
    constructor
    · unfold LibIC.calculateDimensions
      rw [if_neg]
      push_neg
      exact ⟨h1, h2⟩
    · unfold UnIC.calculateOptimalDimensions
      have g1 : ¬((ow : ℚ) > mw) := by exact_mod_cast not_lt.mpr h1
      have g2 : ¬((oh : ℚ) > mh) := by exact_mod_cast not_lt.mpr h2
      simp only [if_neg g1]
      simp only [if_neg g2]
      rw [jsRound_natCast, jsRound_natCast]

/-- Witness for C9 at a 400×300 image that fits within 2048×2048: both
calculators keep 400×300. -/
theorem dimension_calculators_never_upscale_witness :
    ((LibIC.calculateDimensions 400 300 2048 2048).1 ≤ (400 : ℤ) ∧
     (LibIC.calculateDimensions 400 300 2048 2048).2 ≤ (300 : ℤ)) ∧
    ((UnIC.calculateOptimalDimensions 400 300 2048 2048).1 ≤ (400 : ℤ) ∧
     (UnIC.calculateOptimalDimensions 400 300 2048 2048).2 ≤ (300 : ℤ)) ∧
    (400 ≤ 2048 → 300 ≤ 2048 →
      LibIC.calculateDimensions 400 300 2048 2048 = ((400 : ℤ), (300 : ℤ)) ∧
      UnIC.calculateOptimalDimensions 400 300 2048 2048 = ((400 : ℤ), (300 : ℤ))) := by
  exact_mod_cast dimension_calculators_never_upscale 400 300 2048 2048
    (by norm_num) (by norm_num) (by norm_num) (by norm_num)

/-- Quality invariant of part_001's do/while loop: the quality at which the
returned file was encoded stays within `[minQuality, q₀]` for any starting
quality `q₀ ≥ minQuality ≥ 0` (each update is
`max (quality · 0.8) minQuality`, which neither drops below `minQuality`
nor increases). -/
theorem compressLoop_quality_range (enc : Encoder) (w h : ℕ)
    (opts : UnIC.CompressionOptions) (name : String)
    (h0 : 0 ≤ opts.minQuality) :
    ∀ (countdown : ℕ) (q : ℚ) (attempts : ℕ),
      opts.minQuality ≤ q →
      (opts.minQuality ≤ (UnIC.compressLoop enc w h opts name countdown q attempts).2.1 ∧
       (UnIC.compressLoop enc w h opts name countdown q attempts).2.1 ≤ q) := by
  intro countdown
  induction countdown with
  | zero =>
    intro q attempts hq
    simp only [UnIC.compressLoop]
    exact ⟨hq, le_refl q⟩
  | succ n ih =>
    intro q attempts hq
    simp only [UnIC.compressLoop]
    split
    · exact ⟨hq, le_refl q⟩
    · split
      · have hq1 : opts.minQuality ≤ max (q * (8 / 10)) opts.minQuality :=
          le_max_right _ _
        have hq1' : max (q * (8 / 10)) opts.minQuality ≤ q := by
          have : q * (8 / 10) ≤ q := by nlinarith [le_trans h0 hq]
          exact max_le this hq
        have hrec := ih (max (q * (8 / 10)) opts.minQuality) (attempts + 1) hq1
        exact ⟨hrec.1, le_trans hrec.2 hq1'⟩
      · exact ⟨hq, le_refl q⟩

/-- C5: when part_001's `compressImage` returns a compressed result (the
path on which the encode quality is defined — this implementation performs
no dimension-reduction rounds at all) and the size target is met, the
quality at which the returned file was encoded lies in
`[minQuality, initialQuality]`. -/
theorem compressImage_quality_in_range
    (dec : Decoder) (enc : Encoder) (file : JFile) (opts : UnIC.CompressionOptions)
    (h0 : 0 ≤ opts.minQuality) (hmi : opts.minQuality ≤ opts.initialQuality)
    (f : JFile) (q : ℚ) (tr : List ℚ)
    (hrun : UnIC.compressImage dec enc file opts = .ok (f, (some q, tr)))
    (_hmet : f.size ≤ opts.maxSizeBytes) :
    opts.minQuality ≤ q ∧ q ≤ opts.initialQuality := by
  unfold UnIC.compressImage at hrun
  by_cases hsz : file.size ≤ opts.maxSizeBytes
  · rw [if_pos hsz] at hrun
    simp at hrun
  · rw [if_neg hsz] at hrun
    cases hdec : dec file with
    | none => rw [hdec] at hrun; simp at hrun
    | some img =>
      rw [hdec] at hrun
      simp only [Except.ok.injEq, Prod.mk.injEq, Option.some.injEq] at hrun
      obtain ⟨-, hq, -⟩ := hrun
      rw [← hq]
      have := compressLoop_quality_range enc
        (UnIC.calculateOptimalDimensions img.width img.height
          opts.maxWidth opts.maxHeight).1.toNat
        (UnIC.calculateOptimalDimensions img.width img.height
          opts.maxWidth opts.maxHeight).2.toNat
        opts file.name h0 10 opts.initialQuality 0 hmi
      exact ⟨this.1, this.2⟩

/-- Witness for C5: a 2 MB 100×100 image whose first encode already fits —
the returned quality is the initial 0.9, inside `[0.3, 0.9]`. -/
theorem compressImage_quality_in_range_witness :
    UnIC.DEFAULT_OPTIONS.minQuality ≤ (9 / 10 : ℚ) ∧
    (9 / 10 : ℚ) ≤ UnIC.DEFAULT_OPTIONS.initialQuality :=
  compressImage_quality_in_range (fun _ => some ⟨100, 100⟩) (fun _ _ _ => some 100)
    ⟨"r.jpg", "image/jpeg", 2000000⟩ UnIC.DEFAULT_OPTIONS
    (by norm_num [UnIC.DEFAULT_OPTIONS]) (by norm_num [UnIC.DEFAULT_OPTIONS])
    ⟨"r.jpg", "image/jpeg", 100⟩ (9 / 10) [10, 30, 50, 50, 100]
    (by norm_num [UnIC.compressImage, UnIC.compressLoop, UnIC.DEFAULT_OPTIONS,
      UnIC.calculateOptimalDimensions, jsRound])
    (by norm_num [UnIC.DEFAULT_OPTIONS])

/-- C7: when the encoder produces no blob, src/lib's `compressToSize` does
signal `"Failed to create blob from canvas"`, but part_001's `compressImage`
does not: `canvas.toBlob((blob) => resolve(blob!), ...)` passes the `null`
blob straight to `new File([null], ...)`, which stringifies it — the call
returns a successful result holding a 4-byte `"null"` file instead of
signalling an encode error. -/
theorem encoder_failure_returns_corrupt_file :
    UnIC.compressImage (fun _ => some ⟨100, 100⟩) (fun _ _ _ => none)
        ⟨"r.jpg", "image/jpeg", 2000000⟩ UnIC.DEFAULT_OPTIONS =
      .ok (⟨"r.jpg", "image/jpeg", 4⟩, (some (9 / 10), [10, 30, 50, 50, 100])) ∧
    LibIC.compressImage (fun _ => some ⟨100, 100⟩) (fun _ _ _ => none) 1
        ⟨"r.jpg", "image/jpeg", 2000000⟩ LibIC.DEFAULT_COMPRESSION_OPTIONS =
      some (.error "Failed to create blob from canvas") := by
  constructor
  · norm_num [UnIC.compressImage, UnIC.compressLoop, UnIC.DEFAULT_OPTIONS,
      UnIC.calculateOptimalDimensions, jsRound]
  · norm_num [LibIC.compressImage, LibIC.compressToSize, LibIC.qualityLoop,
      LibIC.DEFAULT_COMPRESSION_OPTIONS, LibIC.calculateDimensions, jsRound]

/-- With an oversized constant encoder output (2 MB against the default
900 KB ceiling), the quality loop can only run out of fuel or exhaust
quality without success — it never returns a file and never throws. -/
theorem qualityLoop_oversized_no_success (w h : ℕ) (name : String) (ma : ℚ) :
    ∀ (n : ℕ) (q : ℚ) (a : ℕ),
      LibIC.qualityLoop (fun _ _ _ => some 2000000) w h
          LibIC.DEFAULT_COMPRESSION_OPTIONS name ma n q a = none ∨
      ∃ tr, LibIC.qualityLoop (fun _ _ _ => some 2000000) w h
          LibIC.DEFAULT_COMPRESSION_OPTIONS name ma n q a = some (.ok (none, tr)) := by
  intro n
  induction n with
  | zero => intro q a; exact Or.inl rfl
  | succ m ih =>
    intro q a
    by_cases hq : q < 1 / 10
    · exact Or.inr ⟨[], by simp only [LibIC.qualityLoop, if_pos hq]⟩
    · rcases ih (q - 1 / 10) (a + 1) with hnone | ⟨tr, hok⟩
      · refine Or.inl ?_
        simp only [LibIC.qualityLoop, if_neg hq]
        rw [hnone, if_neg (by norm_num [LibIC.DEFAULT_COMPRESSION_OPTIONS])]
      · refine Or.inr ⟨(80 + ((a + 1 : ℕ) : ℚ) / ma * 15) :: tr, ?_⟩
        simp only [LibIC.qualityLoop, if_neg hq]
        rw [hok, if_neg (by norm_num [LibIC.DEFAULT_COMPRESSION_OPTIONS])]

/-- C1: the dimension-reduction recursion of src/lib's `compressToSize` has
no cap and does not terminate on a 1×1 canvas that exceeds the ceiling at
every quality: `Math.round(1 · 0.8) = 1`, so each round recurses on an
identical state.  For every step bound (fuel) the computation fails to
complete — both for `compressToSize` on the 1×1 canvas and for the full
`compressImage` call on a 1×1 oversized image — instead of returning a
best-effort result after a bounded number of rounds. -/
theorem compressToSize_one_by_one_never_terminates (fuel : ℕ) :
    LibIC.compressToSize (fun _ _ _ => some 2000000) fuel 1 1
        LibIC.DEFAULT_COMPRESSION_OPTIONS "r.jpg" = none ∧
    LibIC.compressImage (fun _ => some ⟨1, 1⟩) (fun _ _ _ => some 2000000) fuel
        ⟨"r.jpg", "image/jpeg", 2000000⟩ LibIC.DEFAULT_COMPRESSION_OPTIONS = none := by
  have main : ∀ f : ℕ, LibIC.compressToSize (fun _ _ _ => some 2000000) f 1 1
      LibIC.DEFAULT_COMPRESSION_OPTIONS "r.jpg" = none := by
    intro f
    induction f with
    | zero => rfl
    | succ m ih =>
      simp only [LibIC.compressToSize]
      rcases qualityLoop_oversized_no_success 1 1 "r.jpg"
          ((⌈(LibIC.DEFAULT_COMPRESSION_OPTIONS.quality - 1 / 10) / (1 / 10)⌉ : ℤ) : ℚ)
          (m + 1) LibIC.DEFAULT_COMPRESSION_OPTIONS.quality 0 with hnone | ⟨tr, hok⟩
      · rw [hnone]
      · rw [hok]
        have hdim : (jsRound (((1 : ℕ) : ℚ) * (8 / 10))).toNat = 1 := by
          norm_num [jsRound]
        rw [hdim]
        have hopts : { LibIC.DEFAULT_COMPRESSION_OPTIONS with quality := 8 / 10 } =
            LibIC.DEFAULT_COMPRESSION_OPTIONS := rfl
        rw [hopts, ih]
  refine ⟨main fuel, ?_⟩
  simp only [LibIC.compressImage]
  rw [if_neg (by norm_num [LibIC.DEFAULT_COMPRESSION_OPTIONS])]
  have hdims : LibIC.calculateDimensions 1 1
      LibIC.DEFAULT_COMPRESSION_OPTIONS.maxWidth
      LibIC.DEFAULT_COMPRESSION_OPTIONS.maxHeight = (1, 1) := by
    norm_num [LibIC.calculateDimensions, LibIC.DEFAULT_COMPRESSION_OPTIONS]
  rw [hdims]
  simp only [Int.toNat_one]
  rw [main fuel]

/-- Progress trace of a successful first-pass quality loop run at the
default starting quality 0.8 (so `maxAttempts = 7` and the quality at
attempt count `k` is `0.8 − k/10`): prefixed with the progress value of the
previous attempt, the trace is non-decreasing, all values lie in `[0,100]`,
and the final value is exactly 100. -/
theorem qualityLoop_trace_monotone (enc : Encoder) (w h : ℕ)
    (opts : LibIC.CompressionOptions) (name : String) :
    ∀ (n : ℕ) (k : ℕ) (f : JFile) (tr : List ℚ),
      LibIC.qualityLoop enc w h opts name 7 n (8 / 10 - (k : ℚ) / 10) k =
        some (.ok (some f, tr)) →
      List.Chain' (· ≤ ·) ((80 + ((k : ℚ)) / 7 * 15) :: tr) ∧
      (∀ x ∈ tr, 0 ≤ x ∧ x ≤ 100) ∧ tr.getLast? = some 100 := by
  intro n
  induction n with
  | zero => intro k f tr hh; exact absurd hh (by simp [LibIC.qualityLoop])
  | succ m ih =>
    intro k f tr hh
    simp only [LibIC.qualityLoop] at hh
    by_cases hq : (8 / 10 - (k : ℚ) / 10) < 1 / 10
    · rw [if_pos hq] at hh
      simp at hh
    · rw [if_neg hq] at hh
      have hk7 : (k : ℚ) ≤ 7 := by linarith [not_lt.mp hq]
      cases henc : enc w h (8 / 10 - (k : ℚ) / 10) with
      | none =>
        rw [henc] at hh
        simp at hh
      | some bs =>
        rw [henc] at hh
        dsimp only at hh
        by_cases hfit : bs ≤ opts.maxSizeBytes
        · rw [if_pos hfit] at hh
          simp only [Option.some.injEq, Except.ok.injEq, Prod.mk.injEq] at hh
          obtain ⟨-, htr⟩ := hh
          subst htr
          have hcast : (((k + 1 : ℕ)) : ℚ) = (k : ℚ) + 1 := by push_cast; ring
          refine ⟨?_, ?_, by simp⟩
          · rw [hcast]
            refine List.chain'_cons.mpr ⟨by linarith, ?_⟩
            refine List.chain'_cons.mpr ⟨by linarith, ?_⟩
            refine List.chain'_cons.mpr ⟨by norm_num, ?_⟩
            simp
          · intro x hx
            rw [hcast] at hx
            simp only [List.mem_cons, List.not_mem_nil, or_false] at hx
            rcases hx with hx | hx | hx <;> subst hx
            · constructor <;> linarith
            · constructor <;> norm_num
            · constructor <;> norm_num
        · rw [if_neg hfit] at hh
          cases hrec : LibIC.qualityLoop enc w h opts name 7 m
              (8 / 10 - (k : ℚ) / 10 - 1 / 10) (k + 1) with
          | none =>
            rw [hrec] at hh
            simp at hh
          | some v =>
            rw [hrec] at hh
            cases v with
            | error e => simp at hh
            | ok p =>
              obtain ⟨r, tr2⟩ := p
              simp only [Option.some.injEq, Except.ok.injEq, Prod.mk.injEq] at hh
              obtain ⟨hr, htr⟩ := hh
              subst htr
              have hshape : (8 / 10 - (k : ℚ) / 10 - 1 / 10) =
                  8 / 10 - (((k + 1 : ℕ)) : ℚ) / 10 := by push_cast; ring
              rw [hshape] at hrec
              cases r with
              | none => simp at hr
              | some f2 =>
                have hres := ih (k + 1) f2 tr2 hrec
                have hcast : (((k + 1 : ℕ)) : ℚ) = (k : ℚ) + 1 := by push_cast; ring
                refine ⟨?_, fun x hx => ?_, ?_⟩
                · refine List.chain'_cons.mpr ⟨?_, hres.1⟩
                  rw [hcast]
                  have hstep : (k : ℚ) / 7 * 15 ≤ ((k : ℚ) + 1) / 7 * 15 := by
                    linarith
                  linarith
                · rcases List.mem_cons.mp hx with hx | hx
                  · subst hx
                    rw [hcast]
                    constructor <;> linarith
                  · exact hres.2.1 x hx
                · cases tr2 with
                  | nil => simp at hres
                  | cons a l =>
                    rw [List.getLast?_cons_cons]
                    exact hres.2.2

/-- A `compressToSize` run at starting quality 0.8 that performs no
dimension-reduction round produces a progress trace that chains upward from
80, stays within `[0,100]`, and ends at exactly 100. -/
theorem compressToSize_rounds_zero (enc : Encoder) (fuel w h : ℕ)
    (opts : LibIC.CompressionOptions) (name : String) (f : JFile) (tr : List ℚ)
    (hq : opts.quality = 8 / 10)
    (hcs : LibIC.compressToSize enc fuel w h opts name = some (.ok (f, (tr, 0)))) :
    List.Chain' (· ≤ ·) ((80 : ℚ) :: tr) ∧
    (∀ x ∈ tr, 0 ≤ x ∧ x ≤ 100) ∧ tr.getLast? = some 100 := by
  cases fuel with
  | zero => exact absurd hcs (by simp [LibIC.compressToSize])
  | succ m =>
    simp only [LibIC.compressToSize] at hcs
    cases hql : LibIC.qualityLoop enc w h opts name
        ((⌈(opts.quality - 1 / 10) / (1 / 10)⌉ : ℤ) : ℚ) (m + 1) opts.quality 0 with
    | none => rw [hql] at hcs; simp at hcs
    | some v =>
      rw [hql] at hcs
      cases v with
      | error e => simp at hcs
      | ok p =>
        obtain ⟨r, tr2⟩ := p
        cases r with
        | some f2 =>
          simp only [Option.some.injEq, Except.ok.injEq, Prod.mk.injEq] at hcs
          obtain ⟨-, htr, -⟩ := hcs
          subst htr
          have hma : ((⌈(opts.quality - 1 / 10) / (1 / 10)⌉ : ℤ) : ℚ) = 7 := by
            rw [hq]; norm_num
          have hq0 : opts.quality = 8 / 10 - (((0 : ℕ)) : ℚ) / 10 := by
            rw [hq]; norm_num
          rw [hma, hq0] at hql
          have hres := qualityLoop_trace_monotone enc w h opts name (m + 1) 0 f2 tr2 hql
          have h80 : (80 : ℚ) + ((0 : ℕ) : ℚ) / 7 * 15 = 80 := by norm_num
          rw [h80] at hres
          exact hres
        | none =>
          dsimp only at hcs
          cases hrec : LibIC.compressToSize enc m
              (jsRound ((w : ℚ) * (8 / 10))).toNat
              (jsRound ((h : ℚ) * (8 / 10))).toNat
              { opts with quality := 8 / 10 } name with
          | none => rw [hrec] at hcs; simp at hcs
          | some v2 =>
            rw [hrec] at hcs
            cases v2 with
            | error e => simp at hcs
            | ok p2 =>
              obtain ⟨f3, tr3, r3⟩ := p2
              simp only [Option.some.injEq, Except.ok.injEq, Prod.mk.injEq] at hcs
              exact absurd hcs.2.2 (by simp)

/-- C4 amended: within a single `compressImage` (src/lib) invocation at the
default quality 0.8 that completes without entering a dimension-reduction
round, the progress values are monotonically non-decreasing, every value
lies in `[0,100]`, and the final callback reports exactly 100.  (When a
dimension-reduction round occurs this fails, see the counterexample.) -/
theorem progress_monotone_without_dimension_reduction
    (dec : Decoder) (enc : Encoder) (fuel : ℕ) (file : JFile)
    (opts : LibIC.CompressionOptions) (hq : opts.quality = 8 / 10)
    (f : JFile) (tr : List ℚ)
    (hrun : LibIC.compressImage dec enc fuel file opts = some (.ok (f, (tr, 0)))) :
    List.Chain' (· ≤ ·) tr ∧ (∀ x ∈ tr, 0 ≤ x ∧ x ≤ 100) ∧
    tr.getLast? = some 100 := by
  unfold LibIC.compressImage at hrun
  by_cases hsz : file.size ≤ opts.maxSizeBytes
  · rw [if_pos hsz] at hrun
    simp only [Option.some.injEq, Except.ok.injEq, Prod.mk.injEq] at hrun
    obtain ⟨-, htr, -⟩ := hrun
    subst htr
    refine ⟨by simp, ?_, by simp⟩
    intro x hx
    simp only [List.mem_singleton] at hx
    subst hx
    norm_num
  · rw [if_neg hsz] at hrun
    cases hdec : dec file with
    | none => rw [hdec] at hrun; simp at hrun
    | some img =>
      rw [hdec] at hrun
      dsimp only at hrun
      cases hcs : LibIC.compressToSize enc fuel
          (LibIC.calculateDimensions img.width img.height
            opts.maxWidth opts.maxHeight).1.toNat
          (LibIC.calculateDimensions img.width img.height
            opts.maxWidth opts.maxHeight).2.toNat opts file.name with
      | none => rw [hcs] at hrun; simp at hrun
      | some v =>
        rw [hcs] at hrun
        cases v with
        | error e => simp at hrun
        | ok p =>
          obtain ⟨f1, tr1, rounds⟩ := p
          simp only [Option.some.injEq, Except.ok.injEq, Prod.mk.injEq] at hrun
          obtain ⟨hf, htr, hrounds⟩ := hrun
          subst htr
          subst hrounds
          have hres := compressToSize_rounds_zero enc fuel _ _ opts file.name f1 tr1 hq hcs
          refine ⟨?_, ?_, ?_⟩
          · refine List.chain'_cons.mpr ⟨by norm_num, ?_⟩
            refine List.chain'_cons.mpr ⟨by norm_num, ?_⟩
            refine List.chain'_cons.mpr ⟨by norm_num, ?_⟩
            refine List.chain'_cons.mpr ⟨by norm_num, ?_⟩
            exact hres.1
          · intro x hx
            rcases List.mem_cons.mp hx with hx | hx
            · subst hx; constructor <;> norm_num
            · rcases List.mem_cons.mp hx with hx | hx
              · subst hx; constructor <;> norm_num
              · rcases List.mem_cons.mp hx with hx | hx
                · subst hx; constructor <;> norm_num
                · rcases List.mem_cons.mp hx with hx | hx
                  · subst hx; constructor <;> norm_num
                  · rcases List.mem_cons.mp hx with hx | hx
                    · subst hx; constructor <;> norm_num
                    · exact hres.2.1 x hx
          · rw [List.getLast?_cons_cons, List.getLast?_cons_cons,
              List.getLast?_cons_cons, List.getLast?_cons_cons]
            cases htr1 : tr1 with
            | nil => rw [htr1] at hres; simp at hres
            | cons a l =>
              rw [htr1] at hres
              rw [List.getLast?_cons_cons]
              exact hres.2.2

/-- C4 counterexample: a completed src/lib run whose first quality pass
exhausts quality (eight attempts, progress up to `80 + 8·15/7 = 680/7 ≈
97.1`) and then enters one dimension-reduction round emits 85 right after
680/7: the progress sequence of this invocation is NOT monotonically
non-decreasing. -/
theorem progress_regresses_on_dimension_reduction :
    LibIC.compressImage (fun _ => some ⟨100, 100⟩)
        (fun w _ _ => if w ≤ 80 then some 100 else some 2000000) 9
        ⟨"r.jpg", "image/jpeg", 2000000⟩ LibIC.DEFAULT_COMPRESSION_OPTIONS =
      some (.ok (⟨"r_compressed.jpeg", "image/jpeg", 100⟩,
        ([10, 20, 40, 60, 80, 575/7, 590/7, 605/7, 620/7, 635/7, 650/7, 665/7, 680/7,
          85, 575/7, 98, 100], 1))) ∧
    ¬ List.Chain' (· ≤ ·)
        [10, 20, 40, 60, 80, 575/7, 590/7, 605/7, 620/7, 635/7, 650/7, 665/7, 680/7,
         85, (575/7 : ℚ), 98, 100] := by
  constructor
  · norm_num [LibIC.compressImage, LibIC.compressToSize, LibIC.qualityLoop,
      LibIC.DEFAULT_COMPRESSION_OPTIONS, LibIC.calculateDimensions, jsRound]
    norm_num [show Int.toNat (100 : ℤ) = 100 from rfl, LibIC.qualityLoop, jsRound]
    decide
  · intro hchain
    norm_num [List.chain'_cons] at hchain

/-- Witness for C4 (amended) on a run whose first encode already fits:
trace 10, 20, 40, 60, 80, 80+15/7, 98, 100. -/
theorem progress_monotone_without_dimension_reduction_witness :
    List.Chain' (· ≤ ·) [10, 20, 40, 60, 80, 575 / 7, 98, (100 : ℚ)] ∧
    (∀ x ∈ [10, 20, 40, 60, 80, 575 / 7, 98, (100 : ℚ)], 0 ≤ x ∧ x ≤ 100) ∧
    List.getLast? [10, 20, 40, 60, 80, 575 / 7, 98, (100 : ℚ)] = some 100 :=
  progress_monotone_without_dimension_reduction (fun _ => some ⟨100, 100⟩)
    (fun _ _ _ => some 100) 1 ⟨"r.jpg", "image/jpeg", 2000000⟩
    LibIC.DEFAULT_COMPRESSION_OPTIONS rfl
    ⟨"r_compressed.jpeg", "image/jpeg", 100⟩
    [10, 20, 40, 60, 80, 575 / 7, 98, 100]
    (by
      norm_num [LibIC.compressImage, LibIC.compressToSize, LibIC.qualityLoop,
        LibIC.DEFAULT_COMPRESSION_OPTIONS, LibIC.calculateDimensions, jsRound]
      decide)
